import Mathlib

/-!
# A shallow embedding of the termboxUI widget library

This file embeds the state and key-handling logic of the termboxUI widgets
(TextBox, Table, Menu, EditBox, Button, Popup) as executable Lean
definitions, translated directly from the Go source, and proves theorems
about the widget state machines.

Conventions used throughout:
* Go `int` is modelled as `Int`; Go slices as `List`.
* A Go operation that can panic (out-of-range slice indexing or slicing)
  is modelled as an `Option`-valued function, `none` meaning a panic.
* Go `copy(dst, src)` copies `min (len dst) (len src)` elements; the helper
  `goCopyAt arr a src` models `copy(arr[a:], src)`.
* A termbox key event carries a key code and a rune; the rune is `0` when
  the event is a special key.  Runes are modelled as `Char`, with
  `nullChar` standing for the zero rune.
-/

namespace TermboxUI

/-- The termbox key codes that the widgets inspect.  `other` stands for any
key code that none of the widget `switch` statements name. -/
inductive Key where
  | arrowUp
  | arrowDown
  | arrowLeft
  | arrowRight
  | enter
  | f1
  | tab
  | space
  | backspace2
  | delete
  | other
deriving DecidableEq, Repr

/-- The zero rune: a termbox key event for a special key carries `ch = 0`. -/
def nullChar : Char := Char.ofNat 0

/-- Go `copy(arr[a:], src)`: overwrite `arr` from position `a` with elements
of `src`, copying `min (len src) (len arr - a)` elements. -/
def goCopyAt {α : Type} (arr : List α) (a : Nat) (src : List α) : List α :=
  let k := min src.length (arr.length - a)
  arr.take a ++ src.take k ++ arr.drop (a + k)

/-- termbox color attributes (termbox-go `Attribute` values). -/
def colorDefault : Nat := 0

/-- termbox `ColorBlack`. -/
def colorBlack : Nat := 1

/-- termbox `ColorWhite`. -/
def colorWhite : Nat := 8

--==========================--
--           Menu           --
--==========================--

/-- `MenuMode`: menus are displayed as either a list or a grid. -/
inductive MenuMode where
  | list
  | grid
deriving DecidableEq, Repr

/-- `MenuInsertLast`: sentinel index that appends a new option. -/
def menuInsertLast : Int := -1

/-- `MenuOption`: a single menu item.  The `Command` function pointer is
modelled as an optional identifier; the Go zero value has a nil command,
modelled as `none`. -/
structure MenuOption where
  title : String
  helpText : String
  command : Option Nat
deriving DecidableEq, Repr

/-- The zero value of the Go `MenuOption` struct (empty strings, nil
command), produced by `make([]MenuOption, n)`. -/
def menuOptionZero : MenuOption := ⟨"", "", none⟩

/-- The `Menu` struct. -/
structure Menu where
  width : Int
  height : Int
  header : String
  mode : MenuMode
  drawHelpBox : Bool
  fg : Nat
  bg : Nat
  options : List MenuOption
  activeIndex : Int
  menuTop : Int
  menuBottom : Int
deriving DecidableEq, Repr

/-- `CreateMenu`: a fresh menu has no options, `activeIndex = 0` and
window `[0, height)`. -/
def createMenu (width height : Int) (header : String) (mode : MenuMode)
    (drawHelpBox : Bool) (fg bg : Nat) : Menu :=
  { width := width, height := height, header := header, mode := mode,
    drawHelpBox := drawHelpBox, fg := fg, bg := bg, options := [],
    activeIndex := 0, menuTop := 0, menuBottom := height }

/-- The list manipulation inside `Menu.InsertMenuOption`, verbatim:
`newOptions := make([]MenuOption, len+1)` (zero-filled), then for an
in-range index two `copy` calls with the source's bounds
(`copy(newOptions[:index], m.Options[:index+1])` and
`copy(newOptions[:index+1], m.Options[index:])`) followed by
`newOptions[index] = newOption`; otherwise `copy(newOptions, m.Options)`
and `newOptions[len] = newOption`.  `zero` is the element zero value. -/
def insertIntoList {α : Type} (zero : α) (options : List α) (index : Int)
    (newOption : α) : List α :=
  let n := options.length
  let newOptions : List α := List.replicate (n + 1) zero
  if 0 ≤ index ∧ index < (n : Int) then
    -- copy(newOptions[:index], m.Options[:index+1]) copies min(index, index+1)
    let a1 := goCopyAt (newOptions.take index.toNat) 0 (options.take (index.toNat + 1))
      ++ newOptions.drop index.toNat
    -- copy(newOptions[:index+1], m.Options[index:]) copies from position 0
    let a2 := goCopyAt (a1.take (index.toNat + 1)) 0 (options.drop index.toNat)
      ++ a1.drop (index.toNat + 1)
    a2.set index.toNat newOption
  else
    (goCopyAt newOptions 0 options).set n newOption

/-- `Menu.InsertMenuOption`. -/
def menuInsertOption (m : Menu) (index : Int) (newOption : MenuOption) : Menu :=
  { m with options := insertIntoList menuOptionZero m.options index newOption }

/-- The `KeyArrowUp` case of `Menu.HandleKey`: decrement `activeIndex`
(floor 0); if it then equals `menuTop` and is positive, slide the window
up by one. -/
def menuStepUp (m : Menu) : Menu :=
  let a := m.activeIndex - 1
  let a := if a < 0 then 0 else a
  if a = m.menuTop ∧ a > 0 then
    { m with activeIndex := a, menuTop := m.menuTop - 1, menuBottom := m.menuBottom - 1 }
  else
    { m with activeIndex := a }

/-- The `KeyArrowDown` case of `Menu.HandleKey`: increment `activeIndex`
(ceiling `len(Options)-1`); if it then equals `menuBottom-1` and there are
more options below, slide the window down by one. -/
def menuStepDown (m : Menu) : Menu :=
  let n : Int := m.options.length
  let a := m.activeIndex + 1
  let a := if a ≥ n then n - 1 else a
  if a = m.menuBottom - 1 ∧ a < n - 1 then
    { m with activeIndex := a, menuTop := m.menuTop + 1, menuBottom := m.menuBottom + 1 }
  else
    { m with activeIndex := a }

/-- The digit lookup in `Menu.HandleKey`'s default case: the loop over
`"123456789"` sets `activeIndex` to the position of the matching rune. -/
def menuDigitIndex (ch : Char) : Option Int :=
  if '1' ≤ ch ∧ ch ≤ '9' then some ((ch.toNat : Int) - ('1'.toNat : Int)) else none

/-- `Menu.HandleKey`.  The result is `none` when the Go code panics:
the `KeyEnter` case evaluates `m.Options[m.activeIndex]`, which is an
out-of-range index when `activeIndex` is not in `[0, len(Options))`.
Otherwise the result is the new menu state and the `eventConsumed` flag. -/
def menuHandleKey (key : Key) (ch : Char) (m : Menu) : Option (Menu × Bool) :=
  match key with
  | .arrowUp => some (menuStepUp m, true)
  | .arrowDown => some (menuStepDown m, true)
  | .arrowLeft =>
      let n : Int := m.options.length
      if m.mode = MenuMode.grid ∧ m.activeIndex ≥ n / 2 then
        some ({ m with activeIndex := m.activeIndex - (n / 2 + 1) }, true)
      else
        some (m, true)
  | .arrowRight =>
      let n : Int := m.options.length
      if m.mode = MenuMode.grid ∧ m.activeIndex ≤ n / 2 ∧ m.activeIndex + 2 < n then
        some ({ m with activeIndex := m.activeIndex + (n / 2 + 1) }, true)
      else
        some (m, true)
  | .enter =>
      -- go m.Options[m.activeIndex].ExecuteCommand(results): the receiver
      -- m.Options[m.activeIndex] is evaluated in the calling goroutine.
      if 0 ≤ m.activeIndex ∧ m.activeIndex < (m.options.length : Int) then
        some (m, true)
      else
        none
  | .f1 => some ({ m with drawHelpBox := !m.drawHelpBox }, true)
  | _ =>
      if ch ≠ nullChar then
        match menuDigitIndex ch with
        | some i => some ({ m with activeIndex := i }, true)
        | none => some (m, true)
      else
        some (m, false)

/-- An Up or Down key event, the events claims C1 and C2 range over. -/
inductive Ud where
  | up
  | down
deriving DecidableEq, Repr

/-- Apply one Up/Down key event through `menuHandleKey` (these two cases
never panic, so the `Option` is always `some`). -/
def menuStep (e : Ud) (m : Menu) : Menu :=
  match e with
  | .up => ((menuHandleKey Key.arrowUp nullChar m).getD (m, true)).1
  | .down => ((menuHandleKey Key.arrowDown nullChar m).getD (m, true)).1

/-- Apply a sequence of Up/Down key events, first event first. -/
def menuApply (es : List Ud) (m : Menu) : Menu :=
  es.foldl (fun s e => menuStep e s) m

--==========================--
--         Text Box         --
--==========================--

/-- The `TextBox` struct (drawing attributes and the reader are omitted;
they do not affect the state machine). -/
structure TextBox where
  hasBorder : Bool
  wrapText : Bool
  width : Int
  height : Int
  text : List (List Char)
  textHeight : Int
  activeIndex : Int
  scrolling : Bool
deriving DecidableEq, Repr

/-- `CreateTextBox`.  The screen dimensions from `termbox.Size()` are
passed explicitly.  Note `scrolling` is hard-wired to `true`; no code in
the library ever sets it to `false`. -/
def createTextBox (screenWidth screenHeight : Int) (width height : Int)
    (withBorder wrapText : Bool) : TextBox :=
  let w := if width = -1 ∨ width > screenWidth then screenWidth else width
  let h := if height = -1 then screenHeight else height
  let newHeight := if withBorder ∧ h > 2 then h - 2 else h
  { hasBorder := withBorder, wrapText := wrapText, width := w, height := h,
    text := List.replicate newHeight.toNat [], textHeight := 0,
    activeIndex := 0, scrolling := true }

/-- `strings.Replace(line, "\t", "    ", -1)`: each tab becomes four
spaces. -/
def expandTabs (line : List Char) : List Char :=
  line.flatMap (fun c => if c = '\t' then [' ', ' ', ' ', ' '] else [c])

/-- The inner `for len(line) != 0` wrapping loop of `TextBox.AddText`.
Each pass cuts `newLine := line[:width-1]` and advances `line = line[width:]`
(or takes the whole remainder when it is shorter than `width`), then
appends `newLine` only when `!tb.scrolling && linesHeight+tb.textHeight <= height`
and otherwise `break`s.  `none` models the slice-bounds panic of
`line[:width-1]` when `width ≤ 0`.  `fuel` bounds the recursion and is
called with `line.length + 1`, which the loop can never exhaust (each pass
shortens `line`). -/
def wrapLoop (scr : Bool) (hgt tH w : Int) :
    Nat → List Char → Int → List (List Char) → Option (List (List Char) × Int)
  | 0, _, lh, acc => some (acc, lh)
  | fuel + 1, line, lh, acc =>
    if line.length = 0 then some (acc, lh)
    else if (line.length : Int) < w then
      if !scr ∧ lh + tH ≤ hgt then
        wrapLoop scr hgt tH w fuel [] (lh + 1) (acc ++ [line])
      else some (acc, lh)
    else if w ≤ 0 then none
    else
      if !scr ∧ lh + tH ≤ hgt then
        wrapLoop scr hgt tH w fuel (line.drop w.toNat) (lh + 1)
          (acc ++ [line.take (w - 1).toNat])
      else some (acc, lh)

/-- The outer loop of `TextBox.AddText` over `strings.Split(text, "\n")`:
expand tabs; an empty line `break`s out of the whole loop; a long line is
wrapped when `wrapText` is set; otherwise the line is appended (the Go
`if/else` appends in both branches). -/
def addTextLoop (wrap scr : Bool) (hgt tH w : Int) :
    List (List Char) → Int → List (List Char) → Option (List (List Char) × Int)
  | [], lh, acc => some (acc, lh)
  | l :: rest, lh, acc =>
    let line := expandTabs l
    if line.length = 0 then some (acc, lh)
    else if wrap ∧ (line.length : Int) > w then
      match wrapLoop scr hgt tH w (line.length + 1) line lh acc with
      | none => none
      | some (acc', lh') => addTextLoop wrap scr hgt tH w rest lh' acc'
    else
      if !scr ∧ lh + tH ≤ hgt then
        addTextLoop wrap scr hgt tH w rest (lh + 1) (acc ++ [line])
      else
        addTextLoop wrap scr hgt tH w rest (lh + 1) (acc ++ [line])

/-- Split a rune sequence at newlines, like `strings.Split(text, "\n")`. -/
def splitLines (s : List Char) : List (List Char) :=
  s.splitOn '\n'

/-- `TextBox.AddText`: run the line loop, then (when any lines were
produced) grow the buffer with `temp := make([]string, linesHeight+textHeight)`,
`copy(temp, tb.text)`, `copy(temp[tb.textHeight:], lines)`. -/
def addText (s : List Char) (tb : TextBox) : Option TextBox :=
  let hgt := tb.height - (if tb.hasBorder then 2 else 0)
  let wid := tb.width - (if tb.hasBorder then 2 else 0)
  match addTextLoop tb.wrapText tb.scrolling hgt tb.textHeight wid
      (splitLines s) 0 [] with
  | none => none
  | some (lines, lh) =>
    if lh > 0 then
      let temp := List.replicate (lh + tb.textHeight).toNat ([] : List Char)
      let temp := goCopyAt temp 0 tb.text
      let temp := goCopyAt temp tb.textHeight.toNat lines
      some { tb with text := temp, textHeight := tb.textHeight + lh }
    else some tb

/-- `TextBox.HandleKey`: Up decrements the scroll offset with a floor of
`0`; Down increments it unless `activeIndex+Height >= textHeight+1`; any
other key is unconsumed. -/
def textBoxHandleKey (key : Key) (ch : Char) (tb : TextBox) : TextBox × Bool :=
  match key with
  | .arrowUp =>
      let a := tb.activeIndex - 1
      let a := if a < 0 then 0 else a
      ({ tb with activeIndex := a }, true)
  | .arrowDown =>
      if ¬(tb.activeIndex + tb.height ≥ tb.textHeight + 1) then
        ({ tb with activeIndex := tb.activeIndex + 1 }, true)
      else
        (tb, true)
  | _ => (tb, false)

--==========================--
--          Table           --
--==========================--

/-- The `Table` struct; `cells[column][row]` stores the cell values. -/
structure Table where
  height : Int
  width : Int
  columns : Int
  rows : Int
  columnLabels : List String
  rowLabels : List String
  showGrid : Bool
  showNumbers : Bool
  activeRow : Int
  activeColumn : Int
  cells : List (List String)
deriving DecidableEq, Repr

/-- `CreateTable`: the row count is clamped to the height when
`height < rows`; the cell grid is allocated as `Columns` columns of
`Rows` empty strings; both active coordinates start at `-1`. -/
def createTable (width height columns rows : Int)
    (columnLabels rowLabels : List String) (showGrid showNumbers : Bool) : Table :=
  let rows' := if height < rows then height else rows
  let colLabels :=
    if columnLabels.length > 0 then
      goCopyAt (List.replicate columns.toNat "") 0 columnLabels
    else []
  let rowLabels' :=
    if rowLabels.length > 0 then
      goCopyAt (List.replicate rows'.toNat "") 0 rowLabels
    else []
  { height := height, width := width, columns := columns, rows := rows',
    columnLabels := colLabels, rowLabels := rowLabels',
    showGrid := showGrid, showNumbers := showNumbers,
    activeRow := -1, activeColumn := -1,
    cells := List.replicate columns.toNat (List.replicate rows'.toNat "") }

/-- `Table.SetCell`: reject coordinates outside `[0, Columns) × [0, Rows)`
with `false`; otherwise overwrite `cells[column][row]` and return `true`. -/
def setCell (column row : Int) (text : String) (t : Table) : Bool × Table :=
  if column ≥ t.columns ∨ row ≥ t.rows ∨ column < 0 ∨ row < 0 then
    (false, t)
  else
    let newCells :=
      t.cells.set column.toNat ((t.cells.getD column.toNat []).set row.toNat text)
    (true, { t with cells := newCells })

/-- Read the cell at column `i`, row `j` of the grid. -/
def getCell (t : Table) (i j : Nat) : String :=
  (t.cells.getD i []).getD j ""

/-- `cellIsActive`, verbatim: when both active coordinates are `-1` the
function returns `false` early; otherwise the column matches when
`active_col` is `-1` or equals `current_col`, the row likewise, and the
cell is active when both match. -/
def cellIsActive (active_col active_row current_col current_row : Int) : Bool :=
  if active_col = -1 ∧ active_row = -1 then false
  else
    let col := active_col = -1 ∨ active_col = current_col
    let row := active_row = -1 ∨ active_row = current_row
    decide col && decide row

/-- The highlight foreground computed in `Table.Draw` for an active cell:
the configured background, falling back to white when the background is
the terminal default. -/
def highlightFg (fg bg : Nat) : Nat :=
  if bg = colorDefault then colorWhite else bg

/-- The highlight background computed in `Table.Draw` for an active cell:
the configured foreground, falling back to black when the foreground is
the terminal default. -/
def highlightBg (fg bg : Nat) : Nat :=
  if fg = colorDefault then colorBlack else fg

/-- `Table.HandleKey`: the table takes no input. -/
def tableHandleKey (key : Key) (ch : Char) (t : Table) : Bool := false

--==========================--
--         Edit Box         --
--==========================--

/-- The `EditBox` struct (drawing attributes omitted). -/
structure EditBox where
  width : Int
  value : List Char
  cursorIndex : Int
  customType : Nat
deriving DecidableEq, Repr

/-- `CreateEditBox`. -/
def createEditBox (screenWidth : Int) (width : Int) (value : List Char)
    (customMessageCode : Nat) : EditBox :=
  { width := if width = -1 then screenWidth else width,
    value := value, cursorIndex := 0, customType := customMessageCode }

/-- `setCursor`, verbatim: the `inputBoxLength` argument is accepted but
never used by the body. -/
def setCursor (frm dest inputBoxLength : Int) : Int :=
  if (frm < dest ∧ frm ≥ 0) ∨ (frm > dest ∧ dest ≥ 0) then dest else frm

/-- `insertCharacter`: append when `index == len(dst)`; insert when
`index < len(dst)` — which panics on the slice `dst[:index]` when `index`
is negative (`none`); otherwise (index past the end) return `dst`
unchanged. -/
def insertCharacter (dst : List Char) (ch : Char) (index : Int) :
    Option (List Char) :=
  if index = (dst.length : Int) then
    some (dst ++ [ch])
  else if (dst.length : Int) > index then
    if index < 0 then none
    else some (dst.take index.toNat ++ [ch] ++ dst.drop index.toNat)
  else
    some dst

/-- `removeCharacter`: drop the character at `index` when it is a valid
position, otherwise return `dst` unchanged. -/
def removeCharacter (dst : List Char) (index : Int) : List Char :=
  if 0 ≤ index ∧ index < (dst.length : Int) then
    dst.take index.toNat ++ dst.drop (index.toNat + 1)
  else
    dst

/-- `EditBox.HandleKey`.  `none` models a panic inside `insertCharacter`.
The `Enter` case sends the buffer on the event channel and clears the
box. -/
def editBoxHandleKey (key : Key) (ch : Char) (eb : EditBox) :
    Option (EditBox × Bool) :=
  match key with
  | .enter =>
      some ({ eb with value := [], cursorIndex := 0 }, true)
  | .backspace2 =>
      let startLength := eb.value.length
      let v := removeCharacter eb.value (eb.cursorIndex - 1)
      let c :=
        if (startLength : Int) > (v.length : Int) then
          setCursor eb.cursorIndex (eb.cursorIndex - 1) v.length
        else eb.cursorIndex
      some ({ eb with value := v, cursorIndex := c }, true)
  | .delete =>
      some ({ eb with value := removeCharacter eb.value eb.cursorIndex }, true)
  | .arrowRight =>
      let c := setCursor eb.cursorIndex (eb.cursorIndex + 1) eb.value.length
      some ({ eb with cursorIndex := c }, true)
  | .arrowLeft =>
      let c := setCursor eb.cursorIndex (eb.cursorIndex - 1) eb.value.length
      some ({ eb with cursorIndex := c }, true)
  | .tab =>
      let startLength := eb.value.length
      match insertCharacter eb.value ' ' eb.cursorIndex with
      | none => none
      | some v1 =>
      match insertCharacter v1 ' ' eb.cursorIndex with
      | none => none
      | some v2 =>
      match insertCharacter v2 ' ' eb.cursorIndex with
      | none => none
      | some v3 =>
      match insertCharacter v3 ' ' eb.cursorIndex with
      | none => none
      | some v4 =>
        let c :=
          if (startLength : Int) < (v4.length : Int) then
            setCursor eb.cursorIndex (eb.cursorIndex + 4) v4.length
          else eb.cursorIndex
        some ({ eb with value := v4, cursorIndex := c }, true)
  | .space =>
      let startLength := eb.value.length
      match insertCharacter eb.value ' ' eb.cursorIndex with
      | none => none
      | some v =>
        let c :=
          if (startLength : Int) < (v.length : Int) then
            setCursor eb.cursorIndex (eb.cursorIndex + 1) v.length
          else eb.cursorIndex
        some ({ eb with value := v, cursorIndex := c }, true)
  | _ =>
      if ch ≠ nullChar then
        let startLength := eb.value.length
        match insertCharacter eb.value ch eb.cursorIndex with
        | none => none
        | some v =>
          let c :=
            if (startLength : Int) < (v.length : Int) then
              setCursor eb.cursorIndex (eb.cursorIndex + 1) v.length
            else eb.cursorIndex
          some ({ eb with value := v, cursorIndex := c }, true)
      else
        some (eb, false)

/-- The destructive buffer truncation at the top of `EditBox.Draw`:
when the buffer exceeds the width, `nchrs := make([]rune, eb.Width)` and
`copy(nchrs, eb.Value[len(eb.Value)-eb.Width-1:])` replace the buffer by
the first `Width` runes of the trailing `Width+1` runes.  `none` models
the slice panic when `Width` is negative. -/
def editBoxDraw (eb : EditBox) : Option EditBox :=
  if (eb.value.length : Int) > eb.width then
    if eb.width < 0 then none
    else
      let v :=
        (eb.value.drop ((eb.value.length : Int) - eb.width - 1).toNat).take
          eb.width.toNat
      some { eb with value := v }
  else
    some eb

/-- Feed a sequence of character keystrokes (key code not matched by any
named case, rune non-zero) through `EditBox.HandleKey`. -/
def typeChars : List Char → EditBox → Option EditBox
  | [], eb => some eb
  | c :: cs, eb =>
    match editBoxHandleKey Key.other c eb with
    | none => none
    | some (eb', _) => typeChars cs eb'

--==========================--
--      Button / Popup      --
--==========================--

/-- The `Button` struct (attributes and the stored event omitted). -/
structure Button where
  text : String
  height : Int
  width : Int
  active : Bool
deriving DecidableEq, Repr

/-- `Button.HandleKey`: `Enter` pushes the stored event and is consumed;
everything else is unconsumed. -/
def buttonHandleKey (key : Key) (b : Button) : Bool :=
  match key with
  | .enter => true
  | _ => false

/-- The `Popup` struct (buttons and attributes omitted). -/
structure Popup where
  title : String
  content : String
  position : Nat
  width : Int
  height : Int
deriving DecidableEq, Repr

/-- `Popup.HandleKey`: the popup takes no input. -/
def popupHandleKey (key : Key) (ch : Char) (p : Popup) : Bool := false

--==========================--
--    Concrete instances    --
--==========================--

/-- A concrete menu option titled `"A"`. -/
def optA : MenuOption := ⟨"A", "help a", some 1⟩

/-- A concrete menu option titled `"B"`. -/
def optB : MenuOption := ⟨"B", "help b", some 2⟩

/-- A concrete menu option titled `"C"`. -/
def optC : MenuOption := ⟨"C", "help c", some 3⟩

/-- A concrete menu option titled `"X"`, used for insertion. -/
def optX : MenuOption := ⟨"X", "help x", some 4⟩

/-- A List-mode menu with options `A`, `B`, `C` and height `2`, built the
way the library is used: `CreateMenu` followed by three
`InsertMenuOption(MenuInsertLast, ·)` calls. -/
def menuABC : Menu :=
  menuInsertOption (menuInsertOption (menuInsertOption
    (createMenu 50 2 "" MenuMode.list false 0 0)
    menuInsertLast optA) menuInsertLast optB) menuInsertLast optC

/-- The same three-option List-mode menu with height `3`. -/
def menuABC3 : Menu :=
  menuInsertOption (menuInsertOption (menuInsertOption
    (createMenu 50 3 "" MenuMode.list false 0 0)
    menuInsertLast optA) menuInsertLast optB) menuInsertLast optC

/-- Apply a sequence of keys through `TextBox.HandleKey` (rune `0`),
first key first. -/
def textBoxApply (es : List Key) (tb : TextBox) : TextBox :=
  es.foldl (fun s k => (textBoxHandleKey k nullChar s).1) tb

/-- A text box of width `10`, height `2`, no border, no wrapping (screen
`1000×1000`). -/
def tbH2 : TextBox := createTextBox 1000 1000 10 2 false false

/-- A text box of width `40`, height `5`, no border, with wrapping
(screen `1000×1000`). -/
def tbWrap40 : TextBox := createTextBox 1000 1000 40 5 false true

/-- The strengthened inductive invariant of the Menu Up/Down state
machine with window height `H`: the window is `[menuTop, menuTop + H)`,
the active index is inside both the option range and the window, the
active index touches the top edge of the window only when the window is
at the very top, and it touches the bottom edge only at the last
option. -/
def menuInv (H : Int) (m : Menu) : Prop :=
  0 ≤ m.menuTop ∧
  m.menuBottom = m.menuTop + H ∧
  0 ≤ m.activeIndex ∧
  m.activeIndex ≤ (m.options.length : Int) - 1 ∧
  m.menuTop ≤ m.activeIndex ∧
  m.activeIndex < m.menuBottom ∧
  (m.activeIndex = m.menuTop → m.menuTop = 0) ∧
  (m.activeIndex = m.menuBottom - 1 → m.activeIndex = (m.options.length : Int) - 1)

/-- Well-formedness of a table's cell grid: `Columns` columns, each of
`Rows` cells — the shape `CreateTable` allocates and `SetCell`
preserves. -/
def tableWF (t : Table) : Prop :=
  t.cells.length = t.columns.toNat ∧ ∀ l ∈ t.cells, l.length = t.rows.toNat

--==========================--
--         Theorems         --
--==========================--

theorem menuStep_up_def (m : Menu) : menuStep Ud.up m = menuStepUp m := rfl

theorem menuStep_down_def (m : Menu) : menuStep Ud.down m = menuStepDown m := rfl

theorem menuStep_options (e : Ud) (m : Menu) : (menuStep e m).options = m.options := by
  cases e
  · rw [menuStep_up_def]
    simp only [menuStepUp]
    split <;> split <;> rfl
  · rw [menuStep_down_def]
    simp only [menuStepDown]
    split <;> split <;> rfl

theorem menuInv_step (H : Int) (hH : 3 ≤ H) (m : Menu)
    (hN : 1 ≤ (m.options.length : Int)) (h : menuInv H m) (e : Ud) :
    menuInv H (menuStep e m) := by
  obtain ⟨h1, h2, h3, h4, h5, h6, h7, h8⟩ := h
  cases e
  · rw [menuStep_up_def]
    unfold menuInv
    simp only [menuStepUp]
    split_ifs <;> dsimp only <;> omega
  · rw [menuStep_down_def]
    unfold menuInv
    simp only [menuStepDown]
    split_ifs <;> dsimp only <;> omega

theorem menuApply_inv (H : Int) (hH : 3 ≤ H) :
    ∀ (es : List Ud) (m : Menu), 1 ≤ (m.options.length : Int) → menuInv H m →
      menuInv H (menuApply es m)
  | [], _, _, h => h
  | e :: es, m, hN, h => by
    have hstep : menuApply (e :: es) m = menuApply es (menuStep e m) := rfl
    rw [hstep]
    exact menuApply_inv H hH es (menuStep e m)
      (by rw [menuStep_options]; exact hN) (menuInv_step H hH m hN h e)

/-- C1, amended: for a menu with `N ≥ 1` options and window height
`H ≥ 3`, after any sequence of Up/Down key events from the initial state
(`activeIndex = 0`, window `[0, H)`), the active index stays within
`[0, N-1]`, lies within `[menuTop, menuBottom)`, and the window is no
taller than `H`.  (For `H ≤ 2` the containment in the window fails, see
the counterexample.) -/
theorem menu_updown_invariant (m0 : Menu) (H : Int) (es : List Ud)
    (ha : m0.activeIndex = 0) (ht : m0.menuTop = 0) (hb : m0.menuBottom = H)
    (hN : 1 ≤ (m0.options.length : Int)) (hH : 3 ≤ H) :
    0 ≤ (menuApply es m0).activeIndex ∧
    (menuApply es m0).activeIndex ≤ ((menuApply es m0).options.length : Int) - 1 ∧
    (menuApply es m0).menuTop ≤ (menuApply es m0).activeIndex ∧
    (menuApply es m0).activeIndex < (menuApply es m0).menuBottom ∧
    (menuApply es m0).menuBottom - (menuApply es m0).menuTop ≤ H := by
  have h0 : menuInv H m0 := by
    unfold menuInv
    refine ⟨?_, ?_, ?_, ?_, ?_, ?_, ?_, ?_⟩ <;> omega
  have h := menuApply_inv H hH es m0 hN h0
  unfold menuInv at h
  obtain ⟨h1, h2, h3, h4, h5, h6, h7, h8⟩ := h
  exact ⟨h3, h4, h5, h6, by omega⟩

/-- Witness for `menu_updown_invariant`: the three-option menu of height
`3` after Down, Down, Up. -/
theorem menu_updown_invariant_witness :
    (menuABC3.activeIndex = 0 ∧ menuABC3.menuTop = 0 ∧ menuABC3.menuBottom = 3 ∧
      1 ≤ (menuABC3.options.length : Int) ∧ (3 : Int) ≤ 3) ∧
    (0 ≤ (menuApply [Ud.down, Ud.down, Ud.up] menuABC3).activeIndex ∧
      (menuApply [Ud.down, Ud.down, Ud.up] menuABC3).activeIndex ≤
        ((menuApply [Ud.down, Ud.down, Ud.up] menuABC3).options.length : Int) - 1 ∧
      (menuApply [Ud.down, Ud.down, Ud.up] menuABC3).menuTop ≤
        (menuApply [Ud.down, Ud.down, Ud.up] menuABC3).activeIndex ∧
      (menuApply [Ud.down, Ud.down, Ud.up] menuABC3).activeIndex <
        (menuApply [Ud.down, Ud.down, Ud.up] menuABC3).menuBottom ∧
      (menuApply [Ud.down, Ud.down, Ud.up] menuABC3).menuBottom -
        (menuApply [Ud.down, Ud.down, Ud.up] menuABC3).menuTop ≤ 3) :=
  ⟨⟨by decide, by decide, by decide, by decide, by decide⟩,
    menu_updown_invariant menuABC3 3 [Ud.down, Ud.down, Ud.up]
      (by decide) (by decide) (by decide) (by decide) (by decide)⟩

/-- C1, counterexample: on the three-option menu with window height `2`,
pressing Down and then Up leaves `activeIndex = 0` while the window is
`[1, 3)`, so the claimed containment
`menuTop ≤ activeIndex < menuBottom` is violated after the Up event. -/
theorem menu_window_containment_fails_at_height_two :
    (menuApply [Ud.down, Ud.up] menuABC).activeIndex = 0 ∧
    (menuApply [Ud.down, Ud.up] menuABC).menuTop = 1 ∧
    ¬((menuApply [Ud.down, Ud.up] menuABC).menuTop ≤
        (menuApply [Ud.down, Ud.up] menuABC).activeIndex) := by
  refine ⟨by decide, by decide, by decide⟩

/-- C2, counterexample: on the `["A","B","C"]` menu of height `2`, the
first Down press already slides the window — the state is
`activeIndex = 1`, window `[1, 3)`, not the claimed window `[0, 2)`. -/
theorem menu_first_down_slides_window :
    (menuApply [Ud.down] menuABC).activeIndex = 1 ∧
    (menuApply [Ud.down] menuABC).menuTop = 1 ∧
    (menuApply [Ud.down] menuABC).menuBottom = 3 ∧
    ¬((menuApply [Ud.down] menuABC).menuTop = 0 ∧
        (menuApply [Ud.down] menuABC).menuBottom = 2) := by
  refine ⟨by decide, by decide, by decide, by decide⟩

/-- C2, amended scenario: the List-mode menu `["A","B","C"]` with height
`2` starts at `activeIndex = 0`, window `[0, 2)`; after the first Down the
state is `activeIndex = 1`, window `[1, 3)` (the window already slides,
because the index lands on `menuBottom - 1` with options below); after
the second Down `activeIndex = 2`, window `[1, 3)`; after the third Down
`activeIndex` stays `2` and the window stays `[1, 3)`. -/
theorem menu_down_down_down_trace :
    (menuABC.activeIndex = 0 ∧ menuABC.menuTop = 0 ∧ menuABC.menuBottom = 2) ∧
    ((menuApply [Ud.down] menuABC).activeIndex = 1 ∧
      (menuApply [Ud.down] menuABC).menuTop = 1 ∧
      (menuApply [Ud.down] menuABC).menuBottom = 3) ∧
    ((menuApply [Ud.down, Ud.down] menuABC).activeIndex = 2 ∧
      (menuApply [Ud.down, Ud.down] menuABC).menuTop = 1 ∧
      (menuApply [Ud.down, Ud.down] menuABC).menuBottom = 3) ∧
    ((menuApply [Ud.down, Ud.down, Ud.down] menuABC).activeIndex = 2 ∧
      (menuApply [Ud.down, Ud.down, Ud.down] menuABC).menuTop = 1 ∧
      (menuApply [Ud.down, Ud.down, Ud.down] menuABC).menuBottom = 3) := by
  refine ⟨by decide, by decide, by decide, by decide⟩

/-- C3: feeding a single line of 100 non-space characters to a TextBox of
width `40` with wrapping and no border appends nothing at all: the box is
returned unchanged with `textHeight = 0` instead of gaining the three
claimed wrapped lines, because the wrap loop's append guard requires
`!tb.scrolling` while `scrolling` is hard-wired to `true` by
`CreateTextBox`, so the loop `break`s on its first pass. -/
theorem addText_wrap_appends_nothing :
    addText (List.replicate 100 'a') tbWrap40 = some tbWrap40 ∧
    (addText (List.replicate 100 'a') tbWrap40).map TextBox.textHeight = some 0 := by
  refine ⟨by decide, by decide⟩

/-- C5, counterexample: `Menu.HandleKey` panics (`none`) on `Enter` for a
freshly created menu, because `m.Options[m.activeIndex]` indexes the empty
options slice at position `0`. -/
theorem menu_enter_on_empty_menu_panics :
    menuHandleKey Key.enter nullChar
      (createMenu 50 10 "F1 - Toggle help text." MenuMode.list false 0 0) = none := by
  decide

/-- C7: from the reachable state obtained by typing `'a'` into an empty
EditBox (buffer `"a"`, cursor `1`), a Right arrow key moves the cursor to
`2`, past `len(value) = 1` — `setCursor` ignores its `inputBoxLength`
argument, so there is no upper clamp and the claimed invariant
`cursorIndex ≤ len(value)` is broken. -/
theorem editBox_right_arrow_exceeds_length :
    ((typeChars ['a'] (createEditBox 1000 10 [] 0)).bind
        (fun eb => editBoxHandleKey Key.arrowRight nullChar eb)).map
      (fun r => (r.1.cursorIndex, (r.1.value.length : Int))) = some (2, 1) ∧
    ¬((2 : Int) ≤ 1) := by
  refine ⟨by decide, by decide⟩

/-- C4, counterexample: `CreateTable` with declared dimensions `1 × 3`
but height `1` clamps the stored row count to `1`, so `SetCell(0, 2)`
returns `false` even though `(0, 2)` lies inside the declared
`[0, 1) × [0, 3)` range. -/
theorem table_setCell_declared_range_fails :
    (setCell 0 2 "x" (createTable 10 1 1 3 [] [] false false)).1 = false ∧
    ((0 : Int) ≤ 0 ∧ (0 : Int) < 1 ∧ (0 : Int) ≤ 2 ∧ (2 : Int) < 3) := by
  refine ⟨by decide, by decide⟩

theorem getD_set_eq_ite {α : Type} (l : List α) (i j : Nat) (a d : α) :
    (l.set i a).getD j d = if i = j ∧ j < l.length then a else l.getD j d := by
  rw [List.getD_eq_getElem?_getD, List.getD_eq_getElem?_getD, List.getElem?_set]
  by_cases h1 : i = j
  · subst h1
    by_cases h2 : i < l.length
    · simp [h2]
    · rw [if_pos rfl, if_neg h2, if_neg (by omega : ¬(i = i ∧ i < l.length)),
        List.getElem?_eq_none (by omega : l.length ≤ i)]
  · rw [if_neg h1, if_neg (by tauto : ¬(i = j ∧ j < l.length))]

theorem getD_mem {α : Type} (l : List α) (n : Nat) (d : α) (h : n < l.length) :
    l.getD n d ∈ l := by
  rw [List.getD_eq_getElem?_getD, List.getElem?_eq_getElem h]
  exact List.getElem_mem h

/-- C4, amended: on any table whose cell grid has the allocated shape
(`Columns` columns of `Rows` cells — in particular any table built by
`CreateTable`, whose stored `Rows` is the declared row count clamped to
the height when `height < rows`), `SetCell(col, row, v)` succeeds exactly
when `(col, row) ∈ [0, Columns) × [0, Rows)`; on failure the table is
returned unchanged, and on success exactly the cell `(col, row)` is
overwritten.  The bound is the *stored* `Rows`, not the declared row
count: `CreateTable` clamps `Rows` to `Height` (final conjunct). -/
theorem table_setCell_spec (t : Table) (col row : Int) (v : String)
    (hwf : tableWF t) :
    ((setCell col row v t).1 = true ↔
      0 ≤ col ∧ col < t.columns ∧ 0 ≤ row ∧ row < t.rows) ∧
    ((setCell col row v t).1 = false → (setCell col row v t).2 = t) ∧
    (∀ i j : Nat, getCell (setCell col row v t).2 i j =
      if (i : Int) = col ∧ (j : Int) = row ∧ 0 ≤ col ∧ col < t.columns ∧
          0 ≤ row ∧ row < t.rows
      then v else getCell t i j) ∧
    tableWF (setCell col row v t).2 ∧
    (∀ w h c r cl rl g n, (createTable w h c r cl rl g n).columns = c ∧
      (createTable w h c r cl rl g n).rows = (if h < r then h else r) ∧
      tableWF (createTable w h c r cl rl g n)) := by
  obtain ⟨hlen, hinner⟩ := hwf
  have hcreate : ∀ (w h c r : Int) (cl rl : List String) (g n : Bool),
      (createTable w h c r cl rl g n).columns = c ∧
      (createTable w h c r cl rl g n).rows = (if h < r then h else r) ∧
      tableWF (createTable w h c r cl rl g n) := by
    intro w h c r cl rl g n
    refine ⟨rfl, rfl, ?_, ?_⟩
    · simp [createTable, tableWF]
    · intro l hl
      have := List.eq_of_mem_replicate hl
      simp [createTable, this]
  unfold setCell
  split_ifs with hg
  · refine ⟨by simp; omega, fun _ => rfl, ?_, ⟨hlen, hinner⟩, hcreate⟩
    intro i j
    rw [if_neg (by omega :
      ¬((i : Int) = col ∧ (j : Int) = row ∧ 0 ≤ col ∧ col < t.columns ∧
        0 ≤ row ∧ row < t.rows))]
  · push_neg at hg
    obtain ⟨hc1, hr1, hc0, hr0⟩ := hg
    have hcn : col.toNat < t.cells.length := by omega
    have hLmem : t.cells.getD col.toNat [] ∈ t.cells := getD_mem _ _ _ hcn
    have hLlen : (t.cells.getD col.toNat []).length = t.rows.toNat :=
      hinner _ hLmem
    refine ⟨by simp; omega, by simp, ?_, ?_, hcreate⟩
    · intro i j
      show ((t.cells.set col.toNat
          ((t.cells.getD col.toNat []).set row.toNat v)).getD i []).getD j "" = _
      rw [getD_set_eq_ite]
      by_cases hi : col.toNat = i ∧ i < t.cells.length
      · rw [if_pos hi, getD_set_eq_ite]
        by_cases hj : row.toNat = j ∧ j < (t.cells.getD col.toNat []).length
        · have hi1 := hi.1
          have hj1 := hj.1
          rw [if_pos hj, if_pos (show (i : Int) = col ∧ (j : Int) = row ∧
              0 ≤ col ∧ col < t.columns ∧ 0 ≤ row ∧ row < t.rows from
            ⟨by omega, by omega, hc0, hc1, hr0, hr1⟩)]
        · rw [if_neg hj, if_neg (by rw [hLlen] at hj; omega :
            ¬((i : Int) = col ∧ (j : Int) = row ∧ 0 ≤ col ∧ col < t.columns ∧
              0 ≤ row ∧ row < t.rows))]
          unfold getCell
          obtain ⟨hi1, _⟩ := hi
          rw [hi1]
      · rw [if_neg hi, if_neg (by omega :
          ¬((i : Int) = col ∧ (j : Int) = row ∧ 0 ≤ col ∧ col < t.columns ∧
            0 ≤ row ∧ row < t.rows))]
        rfl
    · constructor
      · simpa using hlen
      · intro l hl
        rcases List.mem_or_eq_of_mem_set hl with h | h
        · exact hinner _ h
        · rw [h, List.length_set]
          exact hLlen

theorem createTable_wf (w h c r : Int) (cl rl : List String) (g n : Bool) :
    tableWF (createTable w h c r cl rl g n) := by
  refine ⟨?_, fun l hl => ?_⟩
  · simp [createTable]
  · simp only [createTable] at hl
    rw [List.eq_of_mem_replicate hl]
    simp [createTable]

/-- Witness for `table_setCell_spec`: a `2 × 2` table accepts a write at
`(1, 0)`. -/
theorem table_setCell_spec_witness :
    tableWF (createTable 10 5 2 2 [] [] false false) ∧
    (setCell 1 0 "x" (createTable 10 5 2 2 [] [] false false)).1 = true :=
  ⟨createTable_wf 10 5 2 2 [] [] false false,
    ((table_setCell_spec (createTable 10 5 2 2 [] [] false false) 1 0 "x"
      (createTable_wf 10 5 2 2 [] [] false false)).1).mpr (by decide)⟩

/-- C9, counterexample: with `ActiveColumn = -1` and `ActiveRow = -1`
simultaneously, `cellIsActive` returns `false` for the cell `(0, 0)` (and
every other cell): the function returns early instead of treating `-1` as
"match all" on both axes, so no cell is highlighted, contrary to the
claim that every cell is. -/
theorem cellIsActive_both_minus_one_is_false :
    cellIsActive (-1) (-1) 0 0 = false ∧
    (((-1 : Int) = -1 ∨ (-1 : Int) = 0) ∧ ((-1 : Int) = -1 ∨ (-1 : Int) = 0)) := by
  refine ⟨by decide, by decide⟩

/-- C9, amended: a cell is rendered highlighted exactly when its
coordinates match the active row/column mask (`-1` matching everything on
that axis) *and* the two active coordinates are not both `-1` — in that
last case `cellIsActive` short-circuits to `false` and nothing is
highlighted.  The highlight inversion falls back to white-on-black when
both configured colors are the terminal default. -/
theorem cellIsActive_spec :
    (∀ ac ar i j : Int, cellIsActive ac ar i j =
      (!(decide (ac = -1) && decide (ar = -1)) &&
        (decide (ac = -1) || decide (ac = i)) &&
        (decide (ar = -1) || decide (ar = j)))) ∧
    highlightFg colorDefault colorDefault = colorWhite ∧
    highlightBg colorDefault colorDefault = colorBlack := by
  refine ⟨?_, rfl, rfl⟩
  intro ac ar i j
  by_cases h1 : ac = -1 <;> by_cases h2 : ar = -1 <;>
    by_cases h3 : ac = i <;> by_cases h4 : ar = j <;>
      simp [cellIsActive, h1, h2, h3, h4]

theorem setCursor_nonneg (frm dest len : Int) (h : 0 ≤ frm) :
    0 ≤ setCursor frm dest len := by
  unfold setCursor
  split_ifs <;> omega

theorem insertCharacter_eq_some (dst : List Char) (ch : Char) (index : Int)
    (h : 0 ≤ index) : ∃ v, insertCharacter dst ch index = some v := by
  unfold insertCharacter
  split_ifs with h1 h2 h3
  · exact ⟨_, rfl⟩
  · exact absurd h3 (by omega)
  · exact ⟨_, rfl⟩
  · exact ⟨_, rfl⟩

/-- C5, amended: `HandleKey` of TextBox, Table, Popup, Button and EditBox
(the latter from any state with `cursorIndex ≥ 0`, which creation
establishes and every call preserves) terminates without a panic and
reports unrecognized input by returning `false`; `Menu.HandleKey` also
never panics on non-Enter keys and reports unrecognized input as
unconsumed, but its Enter case panics whenever `activeIndex` is outside
`[0, len(Options))`, which is reachable (empty menu, or a digit key past
the option count — see the counterexample). -/
theorem handleKey_safety :
    (∀ (tb : TextBox) (k : Key) (ch : Char), k ≠ Key.arrowUp →
      k ≠ Key.arrowDown → textBoxHandleKey k ch tb = (tb, false)) ∧
    (∀ (t : Table) (k : Key) (ch : Char), tableHandleKey k ch t = false) ∧
    (∀ (p : Popup) (k : Key) (ch : Char), popupHandleKey k ch p = false) ∧
    (∀ (b : Button) (k : Key), k ≠ Key.enter → buttonHandleKey k b = false) ∧
    (∀ (eb : EditBox) (k : Key) (ch : Char), 0 ≤ eb.cursorIndex →
      (editBoxHandleKey k ch eb).isSome = true) ∧
    (∀ (eb : EditBox) (k : Key) (ch : Char) (r : EditBox × Bool),
      0 ≤ eb.cursorIndex → editBoxHandleKey k ch eb = some r →
      0 ≤ r.1.cursorIndex) ∧
    (∀ (eb : EditBox) (k : Key), k ≠ Key.enter → k ≠ Key.backspace2 →
      k ≠ Key.delete → k ≠ Key.arrowRight → k ≠ Key.arrowLeft →
      k ≠ Key.tab → k ≠ Key.space →
      editBoxHandleKey k nullChar eb = some (eb, false)) ∧
    (∀ (m : Menu) (k : Key) (ch : Char), k ≠ Key.enter →
      (menuHandleKey k ch m).isSome = true) ∧
    (∀ (m : Menu) (ch : Char), 0 ≤ m.activeIndex →
      m.activeIndex < (m.options.length : Int) →
      (menuHandleKey Key.enter ch m).isSome = true) ∧
    (∀ (m : Menu) (k : Key), k ≠ Key.arrowUp → k ≠ Key.arrowDown →
      k ≠ Key.arrowLeft → k ≠ Key.arrowRight → k ≠ Key.enter → k ≠ Key.f1 →
      menuHandleKey k nullChar m = some (m, false)) := by
  refine ⟨?_, fun _ _ _ => rfl, fun _ _ _ => rfl, ?_, ?_, ?_, ?_, ?_, ?_, ?_⟩
  · intro tb k ch h1 h2
    cases k <;> simp_all [textBoxHandleKey]
  · intro b k h
    cases k <;> simp_all [buttonHandleKey]
  · intro eb k ch h
    cases k
    case tab =>
      obtain ⟨v1, e1⟩ := insertCharacter_eq_some eb.value ' ' eb.cursorIndex h
      obtain ⟨v2, e2⟩ := insertCharacter_eq_some v1 ' ' eb.cursorIndex h
      obtain ⟨v3, e3⟩ := insertCharacter_eq_some v2 ' ' eb.cursorIndex h
      obtain ⟨v4, e4⟩ := insertCharacter_eq_some v3 ' ' eb.cursorIndex h
      simp [editBoxHandleKey, e1, e2, e3, e4]
    case space =>
      obtain ⟨v1, e1⟩ := insertCharacter_eq_some eb.value ' ' eb.cursorIndex h
      simp [editBoxHandleKey, e1]
    all_goals try simp [editBoxHandleKey]
    all_goals
      (by_cases hch : ch = nullChar
       · simp [editBoxHandleKey, hch]
       · obtain ⟨v1, e1⟩ := insertCharacter_eq_some eb.value ch eb.cursorIndex h
         simp [editBoxHandleKey, hch, e1])
  · intro eb k ch r h hr
    have tail : ∀ v c, some ({ eb with value := v, cursorIndex := c }, true) =
        some r → 0 ≤ c → 0 ≤ r.1.cursorIndex := by
      intro v c he hc
      simp only [Option.some.injEq] at he
      rw [← he]
      exact hc
    cases k
    case enter =>
      exact tail _ _ hr (le_refl 0)
    case backspace2 =>
      refine tail _ _ hr ?_
      split_ifs
      · exact setCursor_nonneg _ _ _ h
      · exact h
    case delete =>
      exact tail _ _ hr h
    case arrowRight =>
      exact tail _ _ hr (setCursor_nonneg _ _ _ h)
    case arrowLeft =>
      exact tail _ _ hr (setCursor_nonneg _ _ _ h)
    case tab =>
      obtain ⟨v1, e1⟩ := insertCharacter_eq_some eb.value ' ' eb.cursorIndex h
      obtain ⟨v2, e2⟩ := insertCharacter_eq_some v1 ' ' eb.cursorIndex h
      obtain ⟨v3, e3⟩ := insertCharacter_eq_some v2 ' ' eb.cursorIndex h
      obtain ⟨v4, e4⟩ := insertCharacter_eq_some v3 ' ' eb.cursorIndex h
      simp only [editBoxHandleKey, e1, e2, e3, e4] at hr
      refine tail _ _ hr ?_
      split_ifs
      · exact setCursor_nonneg _ _ _ h
      · exact h
    case space =>
      obtain ⟨v1, e1⟩ := insertCharacter_eq_some eb.value ' ' eb.cursorIndex h
      simp only [editBoxHandleKey, e1] at hr
      refine tail _ _ hr ?_
      split_ifs
      · exact setCursor_nonneg _ _ _ h
      · exact h
    all_goals
      (by_cases hch : ch = nullChar
       · rw [show editBoxHandleKey _ ch eb = some (eb, false) from by
            simp [editBoxHandleKey, hch]] at hr
         simp only [Option.some.injEq] at hr
         rw [← hr]
         exact h
       · obtain ⟨v1, e1⟩ := insertCharacter_eq_some eb.value ch eb.cursorIndex h
         simp only [editBoxHandleKey, if_pos hch, e1] at hr
         refine tail _ _ hr ?_
         split_ifs
         · exact setCursor_nonneg _ _ _ h
         · exact h)
  · intro eb k h1 h2 h3 h4 h5 h6 h7
    cases k <;> simp_all [editBoxHandleKey]
  · intro m k ch h
    cases k
    case enter => exact absurd rfl h
    all_goals (simp only [menuHandleKey] <;> (repeat' split) <;> rfl)
  · intro m ch h1 h2
    simp only [menuHandleKey]
    rw [if_pos ⟨h1, h2⟩]
    rfl
  · intro m k h1 h2 h3 h4 h5 h6
    cases k <;> simp_all [menuHandleKey]

/-- Witness for `handleKey_safety`: a TextBox ignores Enter, a fresh
EditBox survives Tab, and Enter on a menu with a valid active index does
not panic. -/
theorem handleKey_safety_witness :
    textBoxHandleKey Key.enter nullChar tbH2 = (tbH2, false) ∧
    (editBoxHandleKey Key.tab nullChar (createEditBox 1000 10 [] 0)).isSome = true ∧
    (menuHandleKey Key.enter nullChar menuABC3).isSome = true :=
  ⟨handleKey_safety.1 tbH2 Key.enter nullChar (by decide) (by decide),
    handleKey_safety.2.2.2.2.1 (createEditBox 1000 10 [] 0) Key.tab nullChar
      (by decide),
    handleKey_safety.2.2.2.2.2.2.2.2.1 menuABC3 nullChar (by decide) (by decide)⟩

/-- C10: evaluating `Menu.InsertMenuOption` at the failing input: on the
menu with options `[A, B, C]`, inserting `X` at the in-range index `1`
yields `[B, X, zero, zero]` (where `zero` is the zero-valued `MenuOption`
with nil command) instead of the intended `[A, X, B, C]` — the two `copy`
calls write to the wrong destination ranges.  The `MenuInsertLast` path of
the same call chain did build `[A, B, C]` correctly. -/
theorem insertMenuOption_in_range_corrupts_options :
    menuABC.options = [optA, optB, optC] ∧
    (menuInsertOption menuABC 1 optX).options =
      [optB, optX, menuOptionZero, menuOptionZero] ∧
    ¬((menuInsertOption menuABC 1 optX).options = [optA, optX, optB, optC]) := by
  refine ⟨by decide, by decide, by decide⟩

theorem typeChars_append (cs : List Char) (eb : EditBox)
    (h : eb.cursorIndex = (eb.value.length : Int))
    (hch : ∀ c ∈ cs, c ≠ nullChar) :
    typeChars cs eb = some { eb with
      value := eb.value ++ cs,
      cursorIndex := ((eb.value.length + cs.length : Nat) : Int) } := by
  induction cs generalizing eb with
  | nil =>
    simp only [typeChars, List.append_nil, List.length_nil, Nat.add_zero]
    rw [← h]
  | cons c cs ih =>
    have hc : c ≠ nullChar := hch c (List.mem_cons_self c cs)
    have hins : insertCharacter eb.value c eb.cursorIndex =
        some (eb.value ++ [c]) := by
      rw [h]
      simp [insertCharacter]
    have hlt : ((eb.value.length : Nat) : Int) <
        (((eb.value ++ [c]).length : Nat) : Int) := by
      simp
    have hcur : 0 ≤ eb.cursorIndex := by
      rw [h]; positivity
    have hsc : setCursor eb.cursorIndex (eb.cursorIndex + 1)
        ((eb.value ++ [c]).length : Int) = eb.cursorIndex + 1 := by
      unfold setCursor
      rw [if_pos (Or.inl ⟨by omega, by omega⟩)]
    simp only [typeChars, editBoxHandleKey, if_pos hc, hins, if_pos hlt, hsc]
    rw [ih { eb with value := eb.value ++ [c], cursorIndex := eb.cursorIndex + 1 }
      (by dsimp only; rw [h]; simp) (fun c' hc' => hch c' (List.mem_cons_of_mem c hc'))]
    have h1 : (eb.value ++ [c]) ++ cs = eb.value ++ c :: cs := by simp
    have h2 : (eb.value ++ [c]).length + cs.length =
        eb.value.length + (c :: cs).length := by
      simp only [List.length_append, List.length_cons, List.length_nil]
      omega
    dsimp only
    rw [h1, h2]

/-- C6, amended: typing `L ≤ W` printable (non-zero) characters into an
empty EditBox of width `W` one keystroke at a time yields
`cursorIndex = L` and a buffer equal to the typed string; once the buffer
length exceeds `W`, rendering destructively replaces the stored (and
displayed) buffer by the `W` characters obtained by dropping the *last*
character and taking the trailing `W` of the rest — one position short of
the trailing `W` characters the claim states (the final character is cut
off by the copy from `Value[len-Width-1:]`). -/
theorem editBox_type_and_render (W : Int) (cs : List Char)
    (hch : ∀ c ∈ cs, c ≠ nullChar) (hL : (cs.length : Int) ≤ W) (hW : W ≠ -1) :
    typeChars cs (createEditBox 1000 W [] 0) =
      some { width := W, value := cs, cursorIndex := (cs.length : Int), customType := 0 } ∧
    (∀ eb : EditBox, 0 ≤ eb.width → (eb.value.length : Int) > eb.width →
      editBoxDraw eb = some { eb with
        value := eb.value.dropLast.drop (eb.value.length - 1 - eb.width.toNat) }) := by
  constructor
  · have h0 : (createEditBox 1000 W [] 0).cursorIndex =
        (((createEditBox 1000 W [] 0)).value.length : Int) := by
      simp [createEditBox]
    rw [typeChars_append cs _ h0 hch]
    simp [createEditBox, hW]
  · intro eb hw0 hlen
    unfold editBoxDraw
    rw [if_pos hlen, if_neg (by omega : ¬eb.width < 0)]
    have hWL : eb.width.toNat ≤ eb.value.length - 1 := by omega
    have hval : (eb.value.drop ((eb.value.length : Int) - eb.width - 1).toNat).take
          eb.width.toNat =
        eb.value.dropLast.drop (eb.value.length - 1 - eb.width.toNat) := by
      rw [List.dropLast_eq_take, List.drop_take]
      congr 1
      · omega
      · congr 1
        omega
    rw [hval]

/-- Witness for `editBox_type_and_render`: typing `"ab"` into an empty
box of width `5`. -/
theorem editBox_type_and_render_witness :
    typeChars ['a', 'b'] (createEditBox 1000 5 [] 0) =
      some { width := 5, value := ['a', 'b'], cursorIndex := 2, customType := 0 } :=
  (editBox_type_and_render 5 ['a', 'b'] (by decide) (by decide) (by decide)).1

/-- C6, counterexample: typing `"abcd"` into an empty EditBox of width
`2` and then rendering leaves the stored buffer `"bc"`, not the trailing
two characters `"cd"`: the draw truncation copies from
`Value[len-Width-1:]` and the final character is cut off. -/
theorem editBox_draw_truncation_not_trailing :
    ((typeChars ['a', 'b', 'c', 'd'] (createEditBox 1000 2 [] 0)).bind
        editBoxDraw).map EditBox.value = some ['b', 'c'] ∧
    ¬(some ['b', 'c'] = some (['a', 'b', 'c', 'd'].drop 2)) := by
  refine ⟨by decide, by decide⟩

/-- C8, amended: `TextBox.HandleKey` sends Up to decrement the scroll
offset with a floor of `0`, Down to increment it unless
`activeIndex + Height ≥ textHeight + 1`, and reports every other key
unconsumed with the state unchanged; consequently the offset stays within
`[0, max 0 (textHeight - Height + 1)]` — one more than the bound
`max 0 (lineCount - visibleHeight)` the claim states. -/
theorem textBox_scroll_invariant (tb : TextBox) (k : Key) (ch : Char)
    (h0 : 0 ≤ tb.activeIndex)
    (h1 : tb.activeIndex ≤ max 0 (tb.textHeight - tb.height + 1)) :
    0 ≤ (textBoxHandleKey k ch tb).1.activeIndex ∧
    (textBoxHandleKey k ch tb).1.activeIndex ≤
      max 0 ((textBoxHandleKey k ch tb).1.textHeight -
        (textBoxHandleKey k ch tb).1.height + 1) ∧
    (k = Key.arrowUp →
      (textBoxHandleKey k ch tb).1.activeIndex = max 0 (tb.activeIndex - 1)) ∧
    (k = Key.arrowDown →
      (textBoxHandleKey k ch tb).1.activeIndex =
        (if tb.activeIndex + tb.height ≥ tb.textHeight + 1 then tb.activeIndex
          else tb.activeIndex + 1)) ∧
    (k ≠ Key.arrowUp → k ≠ Key.arrowDown → textBoxHandleKey k ch tb = (tb, false)) := by
  cases k <;> simp only [textBoxHandleKey] <;> split_ifs <;>
    refine ⟨?_, ?_, ?_, ?_, ?_⟩ <;> intros <;> (try simp_all) <;> (try omega)

/-- Witness for `textBox_scroll_invariant`: the fresh height-`2` box with
a Down key press. -/
theorem textBox_scroll_invariant_witness :
    (0 ≤ tbH2.activeIndex ∧
      tbH2.activeIndex ≤ max 0 (tbH2.textHeight - tbH2.height + 1)) ∧
    0 ≤ (textBoxHandleKey Key.arrowDown nullChar tbH2).1.activeIndex ∧
    (textBoxHandleKey Key.arrowDown nullChar tbH2).1.activeIndex ≤
      max 0 ((textBoxHandleKey Key.arrowDown nullChar tbH2).1.textHeight -
        (textBoxHandleKey Key.arrowDown nullChar tbH2).1.height + 1) :=
  ⟨⟨by decide, by decide⟩,
    (textBox_scroll_invariant tbH2 Key.arrowDown nullChar (by decide) (by decide)).1,
    (textBox_scroll_invariant tbH2 Key.arrowDown nullChar (by decide) (by decide)).2.1⟩

/-- C8, counterexample: a no-border TextBox of height `2` holding five
lines lets Down raise the scroll offset to `4`, which exceeds the claimed
bound `max 0 (lineCount - visibleHeight) = max 0 (5 - 2) = 3`: the Down
guard only stops at `activeIndex + Height ≥ textHeight + 1`. -/
theorem textBox_scroll_exceeds_claimed_bound :
    (addText ("a\nb\nc\nd\ne".toList) tbH2).map
      (fun tb =>
        ((textBoxApply [Key.arrowDown, Key.arrowDown, Key.arrowDown, Key.arrowDown]
            tb).activeIndex,
          max 0 (tb.textHeight - tb.height))) = some (4, 3) ∧
    ¬((4 : Int) ≤ 3) := by
  refine ⟨by decide, by decide⟩

end TermboxUI
